import Mathlib

/-!
Verification of the `cletus` test runner (src/cletus.js).

The development shallowly embeds the core of the runner:

* `runTest` / `executeTest`  — the per-test execution engine
  (src/cletus.js lines 121-206), over a deep syntax `TBody` of test
  bodies covering the three execution styles (synchronous return or
  throw, returned promise, callback `done`) and awaited subtests
  registered through the test context.
* `suite`                    — the suite tracker (lines 296-312).
* `processQueue` / `drainAll`— the FIFO scheduler (lines 212-250),
  as a sequential drain: `await task()` fully settles one task before
  the next is shifted.
* `Loop.Machine`             — a deterministic event-loop machine
  (microtask queue, timer queue, in-flight test settlements, the 10 ms
  grace timeout of lines 230-239) used to evaluate concrete
  asynchronous schedules.
* `CState` / `cstep`         — the completion notifier
  (lines 229-239, 255-264 and 349-356).

Counters are natural numbers; log output is modeled structurally
(one `LogEntry` per `reporter.log` call, keyed by the call site).
-/

namespace Cletus

/-- A JavaScript `Error` as the runner uses it: only `error.message` is
ever read (src/cletus.js line 160 tests its truthiness, i.e. that the
string is non-empty). -/
structure JsError where
  message : String
  deriving DecidableEq, Repr

/-- Per-test options `{ skip, todo }` (absent flags are `false`);
read at src/cletus.js lines 131 and 138. -/
structure Options where
  skip : Bool
  todo : Bool
  deriving DecidableEq, Repr

/-- The running counters `context.results` (src/cletus.js lines 13-18). -/
structure Results where
  passed : Nat
  failed : Nat
  skipped : Nat
  todo : Nat
  deriving DecidableEq, Repr

/-- Sum of the four buckets, as `Reporter.getSummary` computes `total`
(src/cletus.js line 101). -/
def Results.total (r : Results) : Nat :=
  r.passed + r.failed + r.skipped + r.todo

/-- Pointwise order on the counters: every bucket of `a` is at most the
corresponding bucket of `b` (counters only ever grow within a run). -/
def Results.le (a b : Results) : Prop :=
  a.passed ≤ b.passed ∧ a.failed ≤ b.failed ∧ a.skipped ≤ b.skipped ∧ a.todo ≤ b.todo

/-- The value returned by `Reporter.getSummary`. -/
structure Summary where
  total : Nat
  passed : Nat
  failed : Nat
  skipped : Nat
  todo : Nat
  success : Bool
  deriving DecidableEq, Repr

/-- `Reporter.getSummary` (src/cletus.js lines 99-111). -/
def getSummary (r : Results) : Summary :=
  { total := r.passed + r.failed + r.skipped + r.todo
    passed := r.passed
    failed := r.failed
    skipped := r.skipped
    todo := r.todo
    success := r.failed == 0 }

/-- The `type` tag passed to `reporter.log` at each call site
(src/cletus.js lines 132, 141/144, 156, 159, 161, 274, 283, 300). -/
inductive LogKind
  | pass
  | fail
  | errmsg
  | skip
  | todo
  | suiteHead
  | separator
  | summary
  deriving DecidableEq, Repr

/-- One `reporter.log` call: the structural content of the emitted line
(the test or suite name, or the error message for `errmsg`) and the
`context.depth` at emission time. -/
structure LogEntry where
  kind : LogKind
  text : String
  depth : Nat
  deriving DecidableEq, Repr

/-- Deep syntax for test bodies, covering what `executeTest`
(src/cletus.js lines 172-206) distinguishes:

* `ret`        — arity ≤ 1 body returning a non-thenable value;
* `thr e`      — arity ≤ 1 body throwing synchronously;
* `resolved`   — arity ≤ 1 body returning a promise that resolves;
* `rejected e` — arity ≤ 1 body returning a promise that rejects;
* `cbDone a`   — arity ≥ 2 body that invokes `done(a)`
                 (`none` models `done()` / `done(null)`);
* `cbThrow e`  — arity ≥ 2 body that throws during invocation;
* `sub n o b k`— body that runs `await ctx.test(n, o, b)` (lines 39-56)
                 and then continues as `k`. -/
inductive TBody
  | ret
  | thr (e : JsError)
  | resolved
  | rejected (e : JsError)
  | cbDone (arg : Option JsError)
  | cbThrow (e : JsError)
  | sub (name : String) (opts : Options) (body rest : TBody)
  deriving DecidableEq, Repr

/-- Declared arity of the body, as `fn.length` reports it: callback
style bodies declare `(t, done)`, all others declare at most `(t)`
(the check at src/cletus.js line 178 is `fn.length > 1`). -/
def TBody.arity : TBody → Nat
  | .cbDone _ => 2
  | .cbThrow _ => 2
  | _ => 1

/-- The settlement of `executeTest` as a function of the body alone:
`ok` if the body completes cleanly, `error e` if it throws, rejects, or
calls `done` with a truthy error.  Subtest failures are swallowed by
`ctx.test`'s `try/catch` (src/cletus.js lines 49-53), so only the
continuation decides the result. -/
def bodyResult : TBody → Except JsError Unit
  | .ret => .ok ()
  | .thr e => .error e
  | .resolved => .ok ()
  | .rejected e => .error e
  | .cbDone none => .ok ()
  | .cbDone (some e) => .error e
  | .cbThrow e => .error e
  | .sub _ _ _ k => bodyResult k

/-- Number of test finishes the body itself triggers through awaited
subtests (each `ctx.test` call runs one `runTest`, whose own body runs
recursively unless the subtest is skipped). -/
def bodyFinishes : TBody → Nat
  | .sub _ o b k => (if o.skip then 1 else 1 + bodyFinishes b) + bodyFinishes k
  | _ => 0

/-- Total number of `runTest` completions caused by running a test with
the given options and body: the test itself, plus its awaited subtests
when the body actually runs. -/
def finishCount (o : Options) (b : TBody) : Nat :=
  if o.skip then 1 else 1 + bodyFinishes b

/-- Record pushed by `suite` (src/cletus.js line 302); its `tests`
array is never appended to in this variant, so only the name matters. -/
structure SuiteRec where
  name : String
  deriving DecidableEq, Repr

/-- The parts of the global `context` object that the sequential
execution engine reads and writes: counters, the structured log, the
output nesting depth and the suite tracker fields. -/
structure RunState where
  results : Results
  log : List LogEntry
  depth : Nat
  current : Option SuiteRec
  suites : List SuiteRec
  deriving DecidableEq, Repr

/-- Outcome classification and recording, the shared tail of `runTest`
(src/cletus.js lines 130-165): given the options, the pre-invocation
state `pre` and the state/settlement `outcome` produced by
`executeTest`, log exactly one primary line, bump exactly one counter,
and rethrow a normal-test failure.  The `skip` branch returns before
the body is invoked, so it uses only `pre` and ignores `outcome`. -/
def classify (name : String) (opts : Options) (d : Nat) (pre : RunState)
    (outcome : RunState × Except JsError Unit) : RunState × Except JsError Unit :=
  if opts.skip then
    ({ pre with
        log := pre.log ++ [⟨.skip, name, d⟩]
        results := { pre.results with skipped := pre.results.skipped + 1 } },
      .ok ())
  else if opts.todo then
    ({ outcome.1 with
        log := outcome.1.log ++ [⟨.todo, name, d⟩]
        results := { outcome.1.results with todo := outcome.1.results.todo + 1 } },
      .ok ())
  else
    match outcome with
    | (t, .ok _) =>
      ({ t with
          log := t.log ++ [⟨.pass, name, d⟩]
          results := { t.results with passed := t.results.passed + 1 } },
        .ok ())
    | (t, .error e) =>
      ({ t with
          log := t.log ++
            (if e.message ≠ "" then [⟨.fail, name, d⟩, ⟨.errmsg, e.message, d⟩]
             else [⟨.fail, name, d⟩])
          results := { t.results with failed := t.results.failed + 1 } },
        .error e)

/-- `executeTest` (src/cletus.js lines 172-206) in the sequential
fragment: leaf bodies settle with `bodyResult`; an awaited
`ctx.test(n, o, b)` runs the subtest's full `runTest` inline,
its rejection swallowed by the surrounding `try/catch`
(lines 49-53), before the body continues.  The trailing
`await Promise.all(ctx.subtests.map(st => st.promise))` of lines
203-205 is a no-op here: `TestContext` never assigns a `promise`
property, so every `st.promise` is `undefined` and the `Promise.all`
resolves immediately (see the event-loop machine below for the
consequences). -/
def executeTest : TBody → RunState → RunState × Except JsError Unit
  | .ret, s => (s, .ok ())
  | .thr e, s => (s, .error e)
  | .resolved, s => (s, .ok ())
  | .rejected e, s => (s, .error e)
  | .cbDone none, s => (s, .ok ())
  | .cbDone (some e), s => (s, .error e)
  | .cbThrow e, s => (s, .error e)
  | .sub n o b k, s => executeTest k (classify n o s.depth s (executeTest b s)).1

/-- `runTest` (src/cletus.js lines 121-166): execute the body and
classify/record the outcome at the entry-time depth. -/
def runTest (name : String) (opts : Options) (b : TBody) (s : RunState) :
    RunState × Except JsError Unit :=
  classify name opts s.depth s (executeTest b s)

/-- The `TestContext` of src/cletus.js lines 30-63: name, nesting
depth and the ordered subtest list (the abort controller carries no
state relevant to the claims). -/
inductive TestCtx
  | mk (name : String) (depth : Nat) (subtests : List TestCtx)

/-- Name of a test context. -/
def TestCtx.name : TestCtx → String
  | .mk n _ _ => n

/-- Depth of a test context. -/
def TestCtx.depth : TestCtx → Nat
  | .mk _ d _ => d

/-- Subtests registered on a test context. -/
def TestCtx.subtests : TestCtx → List TestCtx
  | .mk _ _ l => l

/-- `TestContext.test` (src/cletus.js lines 39-56): create the child
context one level deeper, push it onto `subtests`, run the subtest via
`runTest` with its rejection swallowed by `try/catch`, and return the
child context.  Result: the updated parent, the state after the
subtest ran, and the value the returned promise resolves with. -/
def TestCtx.test (parent : TestCtx) (name : String) (opts : Options) (b : TBody)
    (s : RunState) : TestCtx × RunState × Except JsError TestCtx :=
  let subtest : TestCtx := .mk name (parent.depth + 1) []
  let parent2 : TestCtx := .mk parent.name parent.depth (parent.subtests ++ [subtest])
  let s1 := (runTest name opts b s).1
  (parent2, s1, .ok subtest)

/-- State mutations performed by `suite` before invoking the body
(src/cletus.js lines 300-303): log the header, increment the depth,
install and record the new suite. -/
def suiteEnter (name : String) (s : RunState) : RunState :=
  { s with
      log := s.log ++ [⟨.suiteHead, name, s.depth⟩]
      depth := s.depth + 1
      current := some ⟨name⟩
      suites := s.suites ++ [⟨name⟩] }

/-- `suite` (src/cletus.js lines 296-312).  The body either returns
normally (`none`) or throws (`some e`); the `finally` block restores
the saved depth and active-suite pointer on both paths, and a thrown
error propagates to the caller. -/
def suite (name : String) (body : RunState → RunState × Option JsError)
    (s : RunState) : RunState × Option JsError :=
  let previousDepth := s.depth
  let previousSuite := s.current
  let r := body (suiteEnter name s)
  ({ r.1 with depth := previousDepth, current := previousSuite }, r.2)

/-- A queued test task, as `test` (src/cletus.js lines 320-323)
creates it: `queueTask(() => runTest(name, options, fn))`. -/
structure Task where
  name : String
  opts : Options
  body : TBody
  deriving DecidableEq, Repr

/-- Scheduler state: the run state plus `context.queue` and
`context.running`. -/
structure SchedState where
  run : RunState
  queue : List Task
  running : Bool
  deriving DecidableEq, Repr

/-- One iteration of the drain loop (src/cletus.js lines 218-225):
`await task()` with the per-task `try/catch`, so a failing test does
not stop the scheduler. -/
def runTask (t : Task) (s : RunState) : RunState :=
  (runTest t.name t.opts t.body s).1

/-- The `while` loop of `processQueue` (src/cletus.js lines 218-225):
shift and fully settle one task at a time, in FIFO order. -/
def drainAll : List Task → RunState → RunState
  | [], s => s
  | t :: rest, s => drainAll rest (runTask t s)

/-- `processQueue` (src/cletus.js lines 212-227): a re-entrant call
while a drain is in progress returns immediately; otherwise the whole
queue is drained sequentially.  (The completion-detection tail of
lines 229-239 is modeled by the event-loop machine and the completion
notifier below.) -/
def processQueue (s : SchedState) : SchedState :=
  if s.running then s
  else { run := drainAll s.queue s.run, queue := [], running := false }

/-- Log lines produced by the classification step alone, as a function
of the options and the body's settlement. -/
def classifyEntries (name : String) (opts : Options) (d : Nat)
    (r : Except JsError Unit) : List LogEntry :=
  if opts.skip then [⟨.skip, name, d⟩]
  else if opts.todo then [⟨.todo, name, d⟩]
  else
    match r with
    | .ok _ => [⟨.pass, name, d⟩]
    | .error e =>
      if e.message ≠ "" then [⟨.fail, name, d⟩, ⟨.errmsg, e.message, d⟩]
      else [⟨.fail, name, d⟩]

/-- Log lines a body produces while executing at depth `d` (the lines
of its awaited subtests; a skipped subtest's body contributes
nothing). -/
def bodyEntries : TBody → Nat → List LogEntry
  | .sub n o b k, d =>
    ((if o.skip then [] else bodyEntries b d) ++ classifyEntries n o d (bodyResult b))
      ++ bodyEntries k d
  | _, _ => []

/-- All log lines one `runTest` call appends, in order: the body's
subtest lines followed by the test's own primary line(s). -/
def runTestEntries (name : String) (opts : Options) (b : TBody) (d : Nat) :
    List LogEntry :=
  (if opts.skip then [] else bodyEntries b d) ++
    classifyEntries name opts d (bodyResult b)

end Cletus

namespace Cletus.Loop

/-- Asynchronous behavior of a test body, at event-loop granularity:

* `imm r`     — the body settles on the turn it is invoked
                (synchronous return/throw, or an already-settled
                promise);
* `timer d r` — the body settles with `r` when a timer fires `d`
                ticks (milliseconds) after invocation;
* `spawn n b k` — the body calls `ctx.test(n, b)` WITHOUT awaiting the
                returned promise, then continues as `k`.  The subtest's
                `runTest` starts immediately; nothing ties its
                settlement to the parent, because the parent's
                `executeTest` only awaits `st.promise`
                (src/cletus.js line 204), a property `TestContext`
                never assigns, so `Promise.all` resolves at once. -/
inductive ABody
  | imm (r : Except JsError Unit)
  | timer (delay : Nat) (r : Except JsError Unit)
  | spawn (name : String) (sb k : ABody)
  deriving Repr

/-- A queued top-level test. -/
structure MTask where
  name : String
  opts : Options
  body : ABody
  deriving Repr

/-- An in-flight test execution whose settlement is pending on a
timer: the classification data needed when it settles. -/
structure Flight where
  fid : Nat
  name : String
  isTodo : Bool
  result : Except JsError Unit
  deriving Repr

/-- Macrotask (timer) payloads: the grace-period callback of
`processQueue` (src/cletus.js lines 232-238), the settlement of an
in-flight test body, and an external script registering a new
top-level test via `test(...)`. -/
inductive KJob
  | grace
  | settle (fid : Nat)
  | register (t : MTask)
  deriving Repr

/-- A pending timer: absolute fire time and payload. -/
structure Timer where
  fireAt : Nat
  job : KJob
  deriving Repr

/-- The whole event-loop configuration: the runner's global state
(queue, running, completed, counters, log), the number of `test()`
registrations issued so far, the number of `notifyCompletion()` calls,
the pending `processQueue` microtasks scheduled by `queueTask`
(src/cletus.js line 249), the timer queue, the in-flight test
settlements, and which flight the drain loop is currently awaiting. -/
structure Machine where
  queue : List MTask
  running : Bool
  completed : Bool
  results : Results
  log : List LogEntry
  registered : Nat
  notifies : Nat
  micro : Nat
  timers : List Timer
  flights : List Flight
  drainWait : Option Nat
  nextId : Nat
  time : Nat
  deriving Repr

/-- Settlement effects of one test: the classification tail of
`runTest` (src/cletus.js lines 137-165) applied to the machine's
global counters and log (top-level `context.depth` is 0 while queued
tests execute). -/
def applySettle (name : String) (isTodo : Bool) (r : Except JsError Unit)
    (m : Machine) : Machine :=
  if isTodo then
    { m with
        log := m.log ++ [⟨.todo, name, 0⟩]
        results := { m.results with todo := m.results.todo + 1 } }
  else
    match r with
    | .ok _ =>
      { m with
          log := m.log ++ [⟨.pass, name, 0⟩]
          results := { m.results with passed := m.results.passed + 1 } }
    | .error e =>
      { m with
          log := m.log ++
            (if e.message ≠ "" then [⟨.fail, name, 0⟩, ⟨.errmsg, e.message, 0⟩]
             else [⟨.fail, name, 0⟩])
          results := { m.results with failed := m.results.failed + 1 } }

/-- Run a (non-skipped) test body up to its first suspension point.
`inl r` means it settled on this turn with `r`; `inr fid` means a
flight was created that settles when its timer fires.  A `spawn` first
starts the subtest's own `runTest` (settling it immediately if its
body is immediate), then continues the parent's body: the parent does
not track the child flight, mirroring the vacuous
`await Promise.all(... st.promise)` of src/cletus.js lines 203-205. -/
def startBody (name : String) (isTodo : Bool) :
    ABody → Machine → Machine × (Except JsError Unit ⊕ Nat)
  | .imm r, m => (m, .inl r)
  | .timer d r, m =>
    ({ m with
        nextId := m.nextId + 1
        flights := m.flights ++ [⟨m.nextId, name, isTodo, r⟩]
        timers := m.timers ++ [⟨m.time + d, .settle m.nextId⟩] },
      .inr m.nextId)
  | .spawn nm sb k, m =>
    let m1 :=
      match startBody nm false sb m with
      | (m2, .inl r) => applySettle nm false r m2
      | (m2, .inr _) => m2
    startBody name isTodo k m1

/-- Begin one queued task (`await task()` at src/cletus.js line 221):
a skipped test settles at once without invoking its body
(lines 131-135); otherwise the body runs to its first suspension.
`none` means the task fully settled on this turn (effects applied);
`some fid` means the drain must now await flight `fid`. -/
def startTask (t : MTask) (m : Machine) : Machine × Option Nat :=
  if t.opts.skip then
    ({ m with
        log := m.log ++ [⟨.skip, t.name, 0⟩]
        results := { m.results with skipped := m.results.skipped + 1 } },
      none)
  else
    match startBody t.name t.opts.todo t.body m with
    | (m1, .inl r) => (applySettle t.name t.opts.todo r m1, none)
    | (m1, .inr fid) => (m1, some fid)

/-- The drain loop of `processQueue` (src/cletus.js lines 218-239):
shift tasks one at a time; suspend when a task's settlement is pending
(`drainWait`); when the queue is empty, clear `running` and schedule
the 10 ms grace timeout. -/
def drainLoop : List MTask → Machine → Machine
  | [], m =>
    { m with
        running := false
        timers := m.timers ++ [⟨m.time + 10, .grace⟩] }
  | t :: rest, m =>
    match startTask t { m with queue := rest } with
    | (m1, none) => drainLoop rest m1
    | (m1, some fid) => { m1 with drainWait := some fid }

/-- A `processQueue` invocation (src/cletus.js lines 212-215): return
immediately if a drain is already running, else mark running and
drain. -/
def onDrain (m : Machine) : Machine :=
  if m.running then m
  else drainLoop m.queue { m with running := true }

/-- `reportSummary` (src/cletus.js lines 269-285): when any test has
finished, log the separator and the summary line. -/
def reportSummaryM (m : Machine) : Machine :=
  if 0 < m.results.total then
    { m with log := m.log ++ [⟨.separator, "", 0⟩, ⟨.summary, "", 0⟩] }
  else m

/-- The grace-timeout callback (src/cletus.js lines 232-238): if the
queue is (still) empty and completion has not been declared, declare
it, report the summary and notify.  Note the guard checks only
`context.queue.length === 0 && !context.completed` — it does NOT check
`context.running`, i.e. whether a test is still in flight. -/
def onGrace (m : Machine) : Machine :=
  if m.queue.isEmpty && !m.completed then
    let m1 := reportSummaryM { m with completed := true }
    { m1 with notifies := m1.notifies + 1 }
  else m

/-- A pending test settlement fires: apply the classification effects
and, if the drain loop was awaiting this flight, resume it on the
current queue. -/
def onSettle (fid : Nat) (m : Machine) : Machine :=
  match m.flights.find? (fun f => f.fid == fid) with
  | none => m
  | some f =>
    let m1 := applySettle f.name f.isTodo f.result
      { m with flights := m.flights.filter (fun g => g.fid != fid) }
    match m1.drainWait with
    | some w =>
      if w == fid then drainLoop m1.queue { m1 with drainWait := none }
      else m1
    | none => m1

/-- An external `test(name, options, fn)` call (src/cletus.js lines
320-323 and `queueTask`, lines 246-250): push the task and schedule a
`processQueue` microtask. -/
def onRegister (t : MTask) (m : Machine) : Machine :=
  { m with
      queue := m.queue ++ [t]
      registered := m.registered + 1
      micro := m.micro + 1 }

/-- Dispatch a macrotask payload. -/
def runKJob : KJob → Machine → Machine
  | .grace, m => onGrace m
  | .settle fid, m => onSettle fid m
  | .register t, m => onRegister t m

/-- Select the next timer to fire: smallest fire time, FIFO among
equal times; returns it and the remaining timers in order. -/
def pickMin : Timer → List Timer → Timer × List Timer
  | best, [] => (best, [])
  | best, t :: rest =>
    if t.fireAt < best.fireAt then
      let p := pickMin t rest
      (p.1, best :: p.2)
    else
      let p := pickMin best rest
      (p.1, t :: p.2)

/-- One event-loop step: run all pending microtasks before any timer
(each pending microtask is a `processQueue` call), else advance the
clock to the earliest timer and run it. -/
def step (m : Machine) : Machine :=
  if 0 < m.micro then onDrain { m with micro := m.micro - 1 }
  else
    match m.timers with
    | [] => m
    | t :: ts =>
      let p := pickMin t ts
      runKJob p.1.job { m with timers := p.2, time := p.1.fireAt }

/-- Run `n` event-loop steps. -/
def run : Nat → Machine → Machine
  | 0, m => m
  | n + 1, m => run n (step m)

/-- Scenario for claim C1: the top-level script registers one test
`parent` whose body calls `t.test('sub', ...)` WITHOUT awaiting it —
the subtest's body settles 50 ms later — and then returns.  Initial
state: the task queued and one `processQueue` microtask pending, as
after `test('parent', ...)` returns. -/
def unawaitedScenario : Machine :=
  { queue := [⟨"parent", ⟨false, false⟩, .spawn "sub" (.timer 50 (.ok ())) (.imm (.ok ()))⟩]
    running := false
    completed := false
    results := ⟨0, 0, 0, 0⟩
    log := []
    registered := 1
    notifies := 0
    micro := 1
    timers := []
    flights := []
    drainWait := none
    nextId := 0
    time := 0 }

/-- Scenario for claim C2: the script registers a fast test `A`; 5 ms
later — inside the grace window opened when the queue drained —
external code calls `test('B', ...)` with a body that settles after a
further 100 ms. -/
def graceRaceScenario : Machine :=
  { queue := [⟨"A", ⟨false, false⟩, .imm (.ok ())⟩]
    running := false
    completed := false
    results := ⟨0, 0, 0, 0⟩
    log := []
    registered := 1
    notifies := 0
    micro := 1
    timers := [⟨5, .register ⟨"B", ⟨false, false⟩, .timer 100 (.ok ())⟩⟩]
    flights := []
    drainWait := none
    nextId := 0
    time := 0 }

end Cletus.Loop

namespace Cletus

/-- State of the completion notifier: `context.completed`,
`context.completionHandlers` (handlers identified by numbers), the
chronological record of handler invocations, and the number of
`notifyCompletion()` calls. -/
structure CState where
  completed : Bool
  pending : List Nat
  calls : List Nat
  notifies : Nat
  deriving DecidableEq, Repr

/-- Events hitting the completion notifier: `onComplete(h)`
(src/cletus.js lines 349-356; `waitForCompletion`, lines 362-366, is
`onComplete` applied to a promise resolver) and a firing of the grace
timeout with the observed emptiness of the queue (lines 232-238). -/
inductive CEvent
  | sub (h : Nat)
  | fire (queueEmpty : Bool)
  deriving DecidableEq, Repr

/-- One completion-notifier transition.  `onComplete` invokes the
handler immediately when already completed, else registers it.  A
grace firing with an empty queue and completion not yet declared sets
`completed`, calls every registered handler once (`notifyCompletion`,
lines 255-264; the handler list itself is not cleared by the source)
and counts one notification; otherwise it does nothing. -/
def cstep (s : CState) : CEvent → CState
  | .sub h =>
    if s.completed then { s with calls := s.calls ++ [h] }
    else { s with pending := s.pending ++ [h] }
  | .fire qe =>
    if qe && !s.completed then
      { s with
          completed := true
          calls := s.calls ++ s.pending
          notifies := s.notifies + 1 }
    else s

/-- Run a sequence of completion-notifier events. -/
def crun (s : CState) (es : List CEvent) : CState := es.foldl cstep s

/-- Number of `onComplete` subscriptions of handler `h` in an event
sequence. -/
def subCount (h : Nat) : List CEvent → Nat
  | [] => 0
  | .sub h' :: es => (if h' = h then 1 else 0) + subCount h es
  | .fire _ :: es => subCount h es

/-- Notifier state at the start of a run. -/
def cinit : CState := ⟨false, [], [], 0⟩

/-- A fresh run state (all counters zero, empty log, top level), used
to evaluate the theorems on concrete inputs. -/
def rs0 : RunState := ⟨⟨0, 0, 0, 0⟩, [], 0, none, []⟩

/-- Concrete task `A`: synchronous body. -/
def taskA : Task := ⟨"A", ⟨false, false⟩, .ret⟩

/-- Concrete task `B`: promise-returning body. -/
def taskB : Task := ⟨"B", ⟨false, false⟩, .resolved⟩

/-- Concrete task `C`: callback-style body calling `done()`. -/
def taskC : Task := ⟨"C", ⟨false, false⟩, .cbDone none⟩

/-- Scheduler state with `A`, `B`, `C` registered in that order, each
with a different execution style, and no drain in progress. -/
def schedABC : SchedState := ⟨rs0, [taskA, taskB, taskC], false⟩

/-- Scheduler state in which a drain is already in progress. -/
def schedBusy : SchedState := ⟨rs0, [taskA], true⟩

end Cletus

namespace Cletus

lemma Results.le_refl (a : Results) : Results.le a a :=
  ⟨Nat.le_refl _, Nat.le_refl _, Nat.le_refl _, Nat.le_refl _⟩

lemma Results.le_trans {a b c : Results} (h1 : Results.le a b) (h2 : Results.le b c) :
    Results.le a c :=
  ⟨Nat.le_trans h1.1 h2.1, Nat.le_trans h1.2.1 h2.2.1,
   Nat.le_trans h1.2.2.1 h2.2.2.1, Nat.le_trans h1.2.2.2 h2.2.2.2⟩

lemma classify_depth (n : String) (o : Options) (d : Nat) (pre : RunState)
    (out : RunState × Except JsError Unit) :
    (classify n o d pre out).1.depth = if o.skip then pre.depth else out.1.depth := by
  rcases out with ⟨t, r⟩
  rcases o with ⟨sk, td⟩
  cases sk <;> cases td <;> cases r <;> simp [classify]

lemma classify_log (n : String) (o : Options) (d : Nat) (pre : RunState)
    (out : RunState × Except JsError Unit) :
    (classify n o d pre out).1.log =
      (if o.skip then pre.log else out.1.log) ++ classifyEntries n o d out.2 := by
  rcases out with ⟨t, r⟩
  rcases o with ⟨sk, td⟩
  cases sk <;> cases td <;> cases r <;> simp [classify, classifyEntries]

lemma classify_result (n : String) (o : Options) (d : Nat) (pre : RunState)
    (out : RunState × Except JsError Unit) :
    (classify n o d pre out).2 = if o.skip || o.todo then .ok () else out.2 := by
  rcases out with ⟨t, r⟩
  rcases o with ⟨sk, td⟩
  cases sk <;> cases td <;> cases r <;> simp [classify]

lemma classify_total (n : String) (o : Options) (d : Nat) (pre : RunState)
    (out : RunState × Except JsError Unit) :
    (classify n o d pre out).1.results.total =
      (if o.skip then pre.results.total else out.1.results.total) + 1 := by
  rcases out with ⟨t, r⟩
  rcases o with ⟨sk, td⟩
  cases sk <;> cases td <;> cases r <;> simp [classify, Results.total] <;> omega

lemma classify_mono (n : String) (o : Options) (d : Nat) {s : RunState}
    (out : RunState × Except JsError Unit)
    (h : Results.le s.results out.1.results) :
    Results.le s.results (classify n o d s out).1.results := by
  rcases out with ⟨t, r⟩
  dsimp only at h
  obtain ⟨h1, h2, h3, h4⟩ := h
  rcases o with ⟨sk, td⟩
  cases sk <;> cases td <;> cases r <;> simp [classify, Results.le] <;> omega

lemma executeTest_spec : ∀ (b : TBody) (s : RunState),
    (executeTest b s).1.depth = s.depth ∧
    (executeTest b s).2 = bodyResult b ∧
    (executeTest b s).1.log = s.log ++ bodyEntries b s.depth ∧
    (executeTest b s).1.results.total = s.results.total + bodyFinishes b ∧
    Results.le s.results (executeTest b s).1.results := by
  intro b
  induction b with
  | ret =>
    intro s
    exact ⟨rfl, rfl, by simp [executeTest, bodyEntries],
      by simp [executeTest, bodyFinishes], Results.le_refl _⟩
  | thr e =>
    intro s
    exact ⟨rfl, rfl, by simp [executeTest, bodyEntries],
      by simp [executeTest, bodyFinishes], Results.le_refl _⟩
  | resolved =>
    intro s
    exact ⟨rfl, rfl, by simp [executeTest, bodyEntries],
      by simp [executeTest, bodyFinishes], Results.le_refl _⟩
  | rejected e =>
    intro s
    exact ⟨rfl, rfl, by simp [executeTest, bodyEntries],
      by simp [executeTest, bodyFinishes], Results.le_refl _⟩
  | cbDone a =>
    intro s
    cases a <;>
      exact ⟨rfl, rfl, by simp [executeTest, bodyEntries],
        by simp [executeTest, bodyFinishes], Results.le_refl _⟩
  | cbThrow e =>
    intro s
    exact ⟨rfl, rfl, by simp [executeTest, bodyEntries],
      by simp [executeTest, bodyFinishes], Results.le_refl _⟩
  | sub n o sb k ihs ihk =>
    intro s
    obtain ⟨hd, hr, hl, ht, hm⟩ := ihs s
    have hstep : executeTest (.sub n o sb k) s =
        executeTest k (classify n o s.depth s (executeTest sb s)).1 := by
      simp [executeTest]
    obtain ⟨kd, kr, kl, kt, km⟩ := ihk (classify n o s.depth s (executeTest sb s)).1
    have cd : (classify n o s.depth s (executeTest sb s)).1.depth = s.depth := by
      rw [classify_depth, hd]; simp
    have cl : (classify n o s.depth s (executeTest sb s)).1.log =
        s.log ++ ((if o.skip then [] else bodyEntries sb s.depth) ++
          classifyEntries n o s.depth (bodyResult sb)) := by
      rw [classify_log, hr, hl]
      cases hsk : o.skip <;> simp
    have ct : (classify n o s.depth s (executeTest sb s)).1.results.total =
        s.results.total + (if o.skip then 1 else 1 + bodyFinishes sb) := by
      rw [classify_total, ht]
      cases hsk : o.skip <;> simp <;> omega
    have cm : Results.le s.results (classify n o s.depth s (executeTest sb s)).1.results :=
      classify_mono n o s.depth _ hm
    refine ⟨?_, ?_, ?_, ?_, ?_⟩
    · rw [hstep, kd, cd]
    · rw [hstep, kr]; rfl
    · rw [hstep, kl, cd, cl]
      simp only [bodyEntries]
      simp
    · rw [hstep, kt, ct]
      simp only [bodyFinishes]
      cases hsk : o.skip <;> simp <;> omega
    · rw [hstep]
      exact Results.le_trans cm km

lemma runTest_depth (n : String) (o : Options) (b : TBody) (s : RunState) :
    (runTest n o b s).1.depth = s.depth := by
  rw [runTest, classify_depth, (executeTest_spec b s).1]
  simp

lemma runTest_result (n : String) (o : Options) (b : TBody) (s : RunState) :
    (runTest n o b s).2 = if o.skip || o.todo then .ok () else bodyResult b := by
  rw [runTest, classify_result, (executeTest_spec b s).2.1]

lemma runTest_log (n : String) (o : Options) (b : TBody) (s : RunState) :
    (runTest n o b s).1.log = s.log ++ runTestEntries n o b s.depth := by
  rw [runTest, classify_log, (executeTest_spec b s).2.1,
    (executeTest_spec b s).2.2.1, runTestEntries]
  cases hsk : o.skip <;> simp

lemma runTest_total (n : String) (o : Options) (b : TBody) (s : RunState) :
    (runTest n o b s).1.results.total = s.results.total + finishCount o b := by
  rw [runTest, classify_total, (executeTest_spec b s).2.2.2.1, finishCount]
  cases hsk : o.skip <;> simp <;> omega

lemma runTest_mono (n : String) (o : Options) (b : TBody) (s : RunState) :
    Results.le s.results (runTest n o b s).1.results := by
  rw [runTest]
  exact classify_mono n o s.depth _ (executeTest_spec b s).2.2.2.2

lemma drainAll_spec : ∀ (ts : List Task) (s : RunState),
    (drainAll ts s).log =
      s.log ++ (ts.map (fun t => runTestEntries t.name t.opts t.body s.depth)).flatten ∧
    (drainAll ts s).depth = s.depth := by
  intro ts
  induction ts with
  | nil => intro s; simp [drainAll]
  | cons t rest ih =>
    intro s
    have hlog := runTest_log t.name t.opts t.body s
    have hdep := runTest_depth t.name t.opts t.body s
    obtain ⟨ihl, ihd⟩ := ih (runTask t s)
    constructor
    · rw [drainAll, ihl, runTask, hlog]
      simp [runTask, hdep]
    · rw [drainAll, ihd, runTask, hdep]

end Cletus

namespace Cletus

lemma crun_cons (s : CState) (e : CEvent) (es : List CEvent) :
    crun s (e :: es) = crun (cstep s e) es := rfl

lemma crun_spec : ∀ (es : List CEvent) (s : CState) (h : Nat),
    ((crun s es).notifies = s.notifies +
      (if s.completed then 0 else if (crun s es).completed then 1 else 0)) ∧
    ((crun s es).calls.count h =
      if s.completed then s.calls.count h + subCount h es
      else if (crun s es).completed then
        s.calls.count h + s.pending.count h + subCount h es
      else s.calls.count h) ∧
    (s.completed = true → (crun s es).completed = true) ∧
    ((crun s es).completed = false →
      (crun s es).pending.count h = s.pending.count h + subCount h es) := by
  intro es
  induction es with
  | nil =>
    intro s h
    refine ⟨?_, ?_, fun hc => hc, ?_⟩
    · cases hc : s.completed <;> simp [crun, hc]
    · cases hc : s.completed <;> simp [crun, hc, subCount]
    · intro _; simp [crun, subCount]
  | cons e es ih =>
    intro s h
    rw [crun_cons]
    cases e with
    | sub h2 =>
      cases hc : s.completed
      · have hstep : cstep s (CEvent.sub h2) = { s with pending := s.pending ++ [h2] } := by
          simp [cstep, hc]
        rw [hstep]
        obtain ⟨ih1, ih2, ih3, ih4⟩ := ih { s with pending := s.pending ++ [h2] } h
        refine ⟨?_, ?_, ?_, ?_⟩
        · rw [ih1]; simp [hc]
        · rw [ih2]
          cases hcc : (crun { s with pending := s.pending ++ [h2] } es).completed <;>
            by_cases hh : h2 = h <;>
            simp [hc, hcc, hh, subCount, List.count_append, List.count_cons,
              List.count_nil] <;>
            omega
        · simp [hc]
        · intro hnc
          rw [ih4 hnc]
          by_cases hh : h2 = h <;>
            simp [hh, subCount, List.count_append, List.count_cons, List.count_nil] <;>
            omega
      · have hstep : cstep s (CEvent.sub h2) = { s with calls := s.calls ++ [h2] } := by
          simp [cstep, hc]
        rw [hstep]
        obtain ⟨ih1, ih2, ih3, ih4⟩ := ih { s with calls := s.calls ++ [h2] } h
        have hsc : ({ s with calls := s.calls ++ [h2] } : CState).completed = true := hc
        refine ⟨?_, ?_, ?_, ?_⟩
        · rw [ih1]; simp [hc]
        · rw [ih2]
          by_cases hh : h2 = h <;>
            simp [hc, hh, subCount, List.count_append, List.count_cons,
              List.count_nil] <;>
            omega
        · intro _; exact ih3 hsc
        · intro hnc
          rw [ih3 hsc] at hnc
          cases hnc
    | fire qe =>
      cases hc : s.completed
      · cases qe
        · have hstep : cstep s (CEvent.fire false) = s := by
            simp [cstep]
          rw [hstep]
          obtain ⟨ih1, ih2, ih3, ih4⟩ := ih s h
          refine ⟨?_, ?_, ?_, ?_⟩
          · rw [ih1]; simp [hc]
          · rw [ih2]; simp [hc, subCount]
          · intro hcontr; cases hcontr
          · intro hnc; rw [ih4 hnc]; simp [subCount]
        · have hstep : cstep s (CEvent.fire true) =
              { s with completed := true, calls := s.calls ++ s.pending,
                       notifies := s.notifies + 1 } := by
            simp [cstep, hc]
          rw [hstep]
          obtain ⟨ih1, ih2, ih3, ih4⟩ := ih
            { s with completed := true, calls := s.calls ++ s.pending,
                     notifies := s.notifies + 1 } h
          have hcc := ih3 rfl
          refine ⟨?_, ?_, ?_, ?_⟩
          · rw [ih1]; simp [hc, hcc]
          · rw [ih2]
            simp [hc, hcc, subCount, List.count_append]
          · intro hcontr; cases hcontr
          · intro hnc; rw [hcc] at hnc; cases hnc
      · have hstep : cstep s (CEvent.fire qe) = s := by
          simp [cstep, hc]
        rw [hstep]
        obtain ⟨ih1, ih2, ih3, ih4⟩ := ih s h
        refine ⟨?_, ?_, ?_, ?_⟩
        · rw [ih1]; simp [hc]
        · rw [ih2]; simp [hc, subCount]
        · intro _; exact ih3 hc
        · intro hnc; rw [ih4 hnc]; simp [subCount]

end Cletus

namespace Cletus

lemma executeTest_no_subtests (b : TBody) (hb : bodyFinishes b = 0) (s : RunState) :
    executeTest b s = (s, bodyResult b) := by
  cases b with
  | ret => rfl
  | thr e => rfl
  | resolved => rfl
  | rejected e => rfl
  | cbDone a => cases a <;> rfl
  | cbThrow e => rfl
  | sub n o sb k =>
    exfalso
    simp only [bodyFinishes] at hb
    split_ifs at hb <;> omega

/-- Claim C1: the claim states that a test registering subtests via
`context.test` does not settle — and is not logged as complete — until
every subtest has settled, even if the parent body finishes earlier.
The code violates this: `executeTest` awaits
`Promise.all(ctx.subtests.map(st => st.promise))` (src/cletus.js line
204), but `TestContext` never assigns a `promise` property, so every
element is `undefined` and the wait resolves immediately.  Evaluating
the event-loop machine on a parent whose body spawns an unawaited
50 ms subtest and returns: after one step the parent's `pass` line is
already logged and the subtest is still in flight; two steps later the
run has even declared global completion (separator and summary logged)
before the subtest's own `pass` line finally appears. -/
theorem cletus_c1_unawaited_subtest_bug :
    (Loop.run 1 Loop.unawaitedScenario).log = [⟨.pass, "parent", 0⟩] ∧
    (Loop.run 1 Loop.unawaitedScenario).flights.map (fun f => f.name) = ["sub"] ∧
    (Loop.run 1 Loop.unawaitedScenario).completed = false ∧
    (Loop.run 3 Loop.unawaitedScenario).log =
      [⟨.pass, "parent", 0⟩, ⟨.separator, "", 0⟩, ⟨.summary, "", 0⟩,
        ⟨.pass, "sub", 0⟩] ∧
    (Loop.run 3 Loop.unawaitedScenario).flights.length = 0 :=
  ⟨rfl, rfl, rfl, rfl, rfl⟩

/-- Claim C2: the claim states that when the completion notifier fires,
every test registered via `test()` has finished and `summary.total`
equals the number of `test()` calls issued.  The code violates this:
the grace-timeout guard (src/cletus.js line 233) checks only
`queue.length === 0 && !completed`, not `context.running`, so a test
registered during the grace window whose body is still in flight when
the earlier timer fires is left unfinished at notification time.
Machine evaluation: test `A` settles at once; at 5 ms external code
registers `B` (body settles after a further 100 ms); the grace timer
from `A`'s drain fires at 10 ms and declares completion with
`total = 1` although 2 tests were registered and `B` is still in
flight (`B` finishes only later, and the notifier is not re-fired). -/
theorem cletus_c2_completion_race_bug :
    (Loop.run 4 Loop.graceRaceScenario).completed = true ∧
    (Loop.run 4 Loop.graceRaceScenario).registered = 2 ∧
    (Loop.run 4 Loop.graceRaceScenario).results.total = 1 ∧
    (Loop.run 4 Loop.graceRaceScenario).flights.map (fun f => f.name) = ["B"] ∧
    (Loop.run 6 Loop.graceRaceScenario).results.total = 2 ∧
    (Loop.run 6 Loop.graceRaceScenario).notifies = 1 :=
  ⟨rfl, rfl, rfl, rfl, rfl, rfl⟩

/-- Claim C3: top-level tests execute strictly one at a time in FIFO
registration order — the whole queue is drained sequentially, so the
log grows by the concatenation of each task's lines in registration
order (each test's primary pass/fail line settles before the next
task starts), for bodies of any execution style — and a re-entrant
`processQueue` call while a drain is in progress does nothing. -/
theorem cletus_c3_fifo_serialization (s : SchedState) :
    (s.running = true → processQueue s = s) ∧
    (s.running = false →
      (processQueue s).run.log =
        s.run.log ++
          (s.queue.map (fun t => runTestEntries t.name t.opts t.body s.run.depth)).flatten) := by
  constructor
  · intro hr
    simp [processQueue, hr]
  · intro hr
    simp [processQueue, hr, (drainAll_spec s.queue s.run).1]

/-- Witness for C3: on the concrete states — a drain already in
progress, and tests `A`, `B`, `C` of three different execution styles
registered in that order — the theorem's hypotheses hold and its
conclusions evaluate. -/
theorem cletus_c3_fifo_serialization_witness :
    processQueue schedBusy = schedBusy ∧
    (processQueue schedABC).run.log =
      schedABC.run.log ++
        (schedABC.queue.map
          (fun t => runTestEntries t.name t.opts t.body schedABC.run.depth)).flatten :=
  ⟨(cletus_c3_fifo_serialization schedBusy).1 rfl,
   (cletus_c3_fifo_serialization schedABC).2 rfl⟩

/-- Claim C4: every finished test lands in exactly one bucket — the
total grows by exactly the number of finishes (one per completed
`runTest`, including awaited subtests), the natural-number counters
are pointwise non-decreasing, for a subtest-free body exactly one of
the four counters is incremented — and every `getSummary` snapshot
satisfies `total = passed + failed + skipped + todo` and
`success = (failed == 0)`. -/
theorem cletus_c4_counter_invariants (n : String) (o : Options) (b : TBody)
    (s : RunState) :
    ((runTest n o b s).1.results.total = s.results.total + finishCount o b) ∧
    Results.le s.results (runTest n o b s).1.results ∧
    (bodyFinishes b = 0 →
      ((runTest n o b s).1.results.passed = s.results.passed + 1 ∧
        (runTest n o b s).1.results.failed = s.results.failed ∧
        (runTest n o b s).1.results.skipped = s.results.skipped ∧
        (runTest n o b s).1.results.todo = s.results.todo) ∨
      ((runTest n o b s).1.results.passed = s.results.passed ∧
        (runTest n o b s).1.results.failed = s.results.failed + 1 ∧
        (runTest n o b s).1.results.skipped = s.results.skipped ∧
        (runTest n o b s).1.results.todo = s.results.todo) ∨
      ((runTest n o b s).1.results.passed = s.results.passed ∧
        (runTest n o b s).1.results.failed = s.results.failed ∧
        (runTest n o b s).1.results.skipped = s.results.skipped + 1 ∧
        (runTest n o b s).1.results.todo = s.results.todo) ∨
      ((runTest n o b s).1.results.passed = s.results.passed ∧
        (runTest n o b s).1.results.failed = s.results.failed ∧
        (runTest n o b s).1.results.skipped = s.results.skipped ∧
        (runTest n o b s).1.results.todo = s.results.todo + 1)) ∧
    (∀ r : Results,
      (getSummary r).total =
        (getSummary r).passed + (getSummary r).failed + (getSummary r).skipped +
          (getSummary r).todo ∧
      ((getSummary r).success = true ↔ r.failed = 0)) := by
  refine ⟨runTest_total n o b s, runTest_mono n o b s, ?_, ?_⟩
  · intro hb
    rw [runTest, executeTest_no_subtests b hb]
    rcases o with ⟨sk, td⟩
    cases sk with
    | false =>
      cases td with
      | false =>
        cases hr : bodyResult b with
        | ok u => left; simp [classify, hr]
        | error e => right; left; simp [classify, hr]
      | true => right; right; right; simp [classify]
    | true => right; right; left; simp [classify]
  · intro r
    constructor
    · simp [getSummary]
    · simp [getSummary]

/-- Witness for C4: the exactly-one-bucket disjunction evaluated at a
concrete subtest-free passing test. -/
theorem cletus_c4_counter_invariants_witness :
    bodyFinishes TBody.ret = 0 ∧
    (((runTest "a" ⟨false, false⟩ .ret rs0).1.results.passed = rs0.results.passed + 1 ∧
        (runTest "a" ⟨false, false⟩ .ret rs0).1.results.failed = rs0.results.failed ∧
        (runTest "a" ⟨false, false⟩ .ret rs0).1.results.skipped = rs0.results.skipped ∧
        (runTest "a" ⟨false, false⟩ .ret rs0).1.results.todo = rs0.results.todo) ∨
      ((runTest "a" ⟨false, false⟩ .ret rs0).1.results.passed = rs0.results.passed ∧
        (runTest "a" ⟨false, false⟩ .ret rs0).1.results.failed = rs0.results.failed + 1 ∧
        (runTest "a" ⟨false, false⟩ .ret rs0).1.results.skipped = rs0.results.skipped ∧
        (runTest "a" ⟨false, false⟩ .ret rs0).1.results.todo = rs0.results.todo) ∨
      ((runTest "a" ⟨false, false⟩ .ret rs0).1.results.passed = rs0.results.passed ∧
        (runTest "a" ⟨false, false⟩ .ret rs0).1.results.failed = rs0.results.failed ∧
        (runTest "a" ⟨false, false⟩ .ret rs0).1.results.skipped = rs0.results.skipped + 1 ∧
        (runTest "a" ⟨false, false⟩ .ret rs0).1.results.todo = rs0.results.todo) ∨
      ((runTest "a" ⟨false, false⟩ .ret rs0).1.results.passed = rs0.results.passed ∧
        (runTest "a" ⟨false, false⟩ .ret rs0).1.results.failed = rs0.results.failed ∧
        (runTest "a" ⟨false, false⟩ .ret rs0).1.results.skipped = rs0.results.skipped ∧
        (runTest "a" ⟨false, false⟩ .ret rs0).1.results.todo = rs0.results.todo + 1)) :=
  ⟨rfl, (cletus_c4_counter_invariants "a" ⟨false, false⟩ .ret rs0).2.2.1 rfl⟩

/-- Claim C5: a test registered with `options.skip` true never invokes
its body — the result is the same expression for every body `b`, so no
side effect of `b` can occur — the outcome is SKIPPED (one `skip` log
line, settlement without error) and the `skipped` counter is
incremented by exactly one, with all other state unchanged. -/
theorem cletus_c5_skip_never_runs_body (n : String) (td : Bool) (b : TBody)
    (s : RunState) :
    runTest n ⟨true, td⟩ b s =
      ({ s with
          log := s.log ++ [⟨.skip, n, s.depth⟩]
          results := { s.results with skipped := s.results.skipped + 1 } },
        .ok ()) := by
  simp [runTest, classify]

/-- Claim C6: a test registered with `todo` true (and `skip` false)
does invoke its body — the result state is exactly the state
`executeTest b s` leaves, extended by the `todo` line and counter —
and regardless of whether the body throws, rejects or completes
cleanly the test settles without error (outcome TODO); for a
subtest-free body the `failed` counter is untouched and no error text
is surfaced (the log grows by exactly the one `todo` line). -/
theorem cletus_c6_todo_runs_body_never_fails (n : String) (b : TBody)
    (s : RunState) :
    (runTest n ⟨false, true⟩ b s =
      ({ (executeTest b s).1 with
          log := (executeTest b s).1.log ++ [⟨.todo, n, s.depth⟩]
          results := { (executeTest b s).1.results with
            todo := (executeTest b s).1.results.todo + 1 } },
        .ok ())) ∧
    (bodyFinishes b = 0 →
      (runTest n ⟨false, true⟩ b s).1.results.failed = s.results.failed ∧
      (runTest n ⟨false, true⟩ b s).1.log = s.log ++ [⟨.todo, n, s.depth⟩]) := by
  constructor
  · simp [runTest, classify]
  · intro hb
    rw [runTest, executeTest_no_subtests b hb]
    constructor <;> simp [classify]

/-- Witness for C6: a todo test whose body throws still settles as
TODO, leaving `failed` untouched and surfacing no error text. -/
theorem cletus_c6_todo_runs_body_never_fails_witness :
    bodyFinishes (TBody.thr ⟨"boom"⟩) = 0 ∧
    ((runTest "t" ⟨false, true⟩ (.thr ⟨"boom"⟩) rs0).1.results.failed =
        rs0.results.failed ∧
      (runTest "t" ⟨false, true⟩ (.thr ⟨"boom"⟩) rs0).1.log =
        rs0.log ++ [⟨.todo, "t", rs0.depth⟩]) :=
  ⟨rfl, (cletus_c6_todo_runs_body_never_fails "t" (.thr ⟨"boom"⟩) rs0).2 rfl⟩

/-- Claim C7: a body of declared arity at least 2 is exactly a
callback-style body, and its completion is governed by `done`:
`done()` / `done(null)` settles the test as PASSED, `done(e)` with a
truthy error settles it as FAILED with the error rethrown and its
message surfaced in the log, and a synchronous throw during invocation
also settles it as FAILED. -/
theorem cletus_c7_callback_style (n : String) (s : RunState) (b : TBody)
    (ha : 2 ≤ b.arity) :
    (b = .cbDone none →
      runTest n ⟨false, false⟩ b s =
        ({ s with
            log := s.log ++ [⟨.pass, n, s.depth⟩]
            results := { s.results with passed := s.results.passed + 1 } },
          .ok ())) ∧
    (∀ e : JsError, b = .cbDone (some e) →
      runTest n ⟨false, false⟩ b s =
        ({ s with
            log := s.log ++
              (if e.message ≠ "" then [⟨.fail, n, s.depth⟩, ⟨.errmsg, e.message, s.depth⟩]
               else [⟨.fail, n, s.depth⟩])
            results := { s.results with failed := s.results.failed + 1 } },
          .error e)) ∧
    (∀ e : JsError, b = .cbThrow e →
      runTest n ⟨false, false⟩ b s =
        ({ s with
            log := s.log ++
              (if e.message ≠ "" then [⟨.fail, n, s.depth⟩, ⟨.errmsg, e.message, s.depth⟩]
               else [⟨.fail, n, s.depth⟩])
            results := { s.results with failed := s.results.failed + 1 } },
          .error e)) ∧
    (b = .cbDone none ∨ (∃ e, b = .cbDone (some e)) ∨ (∃ e, b = .cbThrow e)) := by
  refine ⟨?_, ?_, ?_, ?_⟩
  · intro hb
    subst hb
    simp [runTest, classify, executeTest]
  · intro e hb
    subst hb
    simp [runTest, classify, executeTest]
  · intro e hb
    subst hb
    simp [runTest, classify, executeTest]
  · cases b with
    | cbDone a =>
      cases a with
      | none => exact Or.inl rfl
      | some e => exact Or.inr (Or.inl ⟨e, rfl⟩)
    | cbThrow e => exact Or.inr (Or.inr ⟨e, rfl⟩)
    | ret => simp [TBody.arity] at ha
    | thr e => simp [TBody.arity] at ha
    | resolved => simp [TBody.arity] at ha
    | rejected e => simp [TBody.arity] at ha
    | sub nm o sb k => simp [TBody.arity] at ha

/-- Witness for C7: `done(new Error('e'))` settles the test as FAILED
with message `'e'` surfaced. -/
theorem cletus_c7_callback_style_witness :
    2 ≤ (TBody.cbDone (some ⟨"e"⟩)).arity ∧
    runTest "t" ⟨false, false⟩ (.cbDone (some ⟨"e"⟩)) rs0 =
      ({ rs0 with
          log := rs0.log ++ [⟨.fail, "t", rs0.depth⟩, ⟨.errmsg, "e", rs0.depth⟩]
          results := { rs0.results with failed := rs0.results.failed + 1 } },
        .error ⟨"e"⟩) :=
  ⟨by decide,
   (cletus_c7_callback_style "t" rs0 (.cbDone (some ⟨"e"⟩)) (by decide)).2.1 ⟨"e"⟩ rfl⟩

/-- Claim C8: global completion fires the notifier at most once per
run — later empty-queue observations after completion do not re-fire
it — and for any sequence of grace firings and `onComplete`
subscriptions, a handler's invocation count equals its subscription
count once completion is declared (each subscriber is called exactly
once: immediately when subscribing after completion, at declaration
otherwise) and is zero while completion has not been declared. -/
theorem cletus_c8_completion_notifier_once (es : List CEvent) (h : Nat) :
    (crun cinit es).notifies ≤ 1 ∧
    (crun cinit es).calls.count h =
      (if (crun cinit es).completed then subCount h es else 0) := by
  obtain ⟨h1, h2, _, _⟩ := crun_spec es cinit h
  constructor
  · rw [h1]
    simp only [cinit]
    split_ifs <;> omega
  · rw [h2]
    simp [cinit]

/-- Claim C9: `suite` restores the nesting depth and the active-suite
pointer to their pre-call values on every exit path — for every body,
including ones that throw; the body's error, if any, propagates
unchanged after restoration — while the state the body runs in has the
incremented depth, the new active suite and the pushed suite record. -/
theorem cletus_c9_suite_restores_context (name : String)
    (body : RunState → RunState × Option JsError) (s : RunState) :
    (suite name body s).1.depth = s.depth ∧
    (suite name body s).1.current = s.current ∧
    (suite name body s).2 = (body (suiteEnter name s)).2 ∧
    (suiteEnter name s).depth = s.depth + 1 ∧
    (suiteEnter name s).current = some ⟨name⟩ ∧
    (suiteEnter name s).suites = s.suites ++ [⟨name⟩] :=
  ⟨rfl, rfl, rfl, rfl, rfl, rfl⟩

/-- Claim C10: the awaitable returned by `context.test` never rejects:
for every subtest options and body it resolves with the child context
(child name, parent depth + 1), the run state being exactly what
`runTest` left behind — and concretely for a throwing subtest the
failure is recorded (`failed` incremented, `fail` line logged) yet the
returned value is still a resolution, so the parent body continues. -/
theorem cletus_c10_subtest_await_never_rejects (parent : TestCtx) (n : String)
    (o : Options) (b : TBody) (s : RunState) :
    ((parent.test n o b s).2.2 = .ok (.mk n (parent.depth + 1) [])) ∧
    ((parent.test n o b s).2.1 = (runTest n o b s).1) ∧
    (∀ e : JsError,
      (parent.test n ⟨false, false⟩ (.thr e) s).2.2 =
        .ok (.mk n (parent.depth + 1) []) ∧
      (parent.test n ⟨false, false⟩ (.thr e) s).2.1.results.failed =
        s.results.failed + 1 ∧
      (⟨.fail, n, s.depth⟩ : LogEntry) ∈
        (parent.test n ⟨false, false⟩ (.thr e) s).2.1.log) := by
  refine ⟨rfl, rfl, fun e => ⟨rfl, ?_, ?_⟩⟩
  · simp [TestCtx.test, runTest, classify, executeTest]
  · by_cases hm : e.message = "" <;>
      simp [TestCtx.test, runTest, classify, executeTest, hm]

end Cletus
